import Mathlib

/-!
Verification of the grid-based smoke solver (`GridSolver.h`, 2-D instantiation,
exact-arithmetic model over ℚ).

The density field of the solver is a cell-centered scalar grid of
`(N+2) × (N+2)` cells (an `N × N` interior surrounded by a one-cell ghost
border at indices `0` and `N+1`).  We model a field as a total function
`ℤ × ℤ → ℚ`; indices outside `[0, N+1]²` are never read or written by the
modelled operations.

Headers of the repository that are not among the provided sources
(`FaceCenteredGrid.h`, `CellCenteredScalarGrid.h`, `Vector3.h`, the
diffusion/pressure sub-solvers) are either modelled from the spec (marked in
their doc comments) or kept abstract as parameters.
-/

namespace SmokeGrid

/-- A scalar grid field: one rational value per integer 2-D index. -/
def Field : Type := ℤ × ℤ → ℚ

/-- Edge phase of `GridSolver::applyBoundaryCondition`: the loop
`for i in 1..N` copies each edge ghost cell from its adjacent interior cell
(`d[0,i] = d[1,i]`, `d[N+1,i] = d[N,i]`, `d[i,0] = d[i,1]`,
`d[i,N+1] = d[i,N]`).  For `N ≥ 1` all writes target ghost cells and all
reads are interior cells, so the loop is this pointwise function. -/
def bcEdge (N : ℤ) (d : Field) : Field := fun p =>
  if p.1 = 0 ∧ 1 ≤ p.2 ∧ p.2 ≤ N then d (1, p.2)
  else if p.1 = N + 1 ∧ 1 ≤ p.2 ∧ p.2 ≤ N then d (N, p.2)
  else if p.2 = 0 ∧ 1 ≤ p.1 ∧ p.1 ≤ N then d (p.1, 1)
  else if p.2 = N + 1 ∧ 1 ≤ p.1 ∧ p.1 ≤ N then d (p.1, N)
  else d p

/-- The whole of `GridSolver::applyBoundaryCondition`: after the edge loop,
the four ghost corners are set to the average of their two adjacent edge
ghost cells (which the loop has just written; for `N ≥ 1` no corner read
touches another corner, so the four corner writes are order-independent). -/
def applyBoundaryCondition (N : ℤ) (d : Field) : Field := fun p =>
  if p = (0, 0) then (bcEdge N d (1, 0) + bcEdge N d (0, 1)) / 2
  else if p = (0, N + 1) then (bcEdge N d (1, N + 1) + bcEdge N d (0, N)) / 2
  else if p = (N + 1, 0) then (bcEdge N d (N, 0) + bcEdge N d (N + 1, 1)) / 2
  else if p = (N + 1, N + 1) then (bcEdge N d (N, N + 1) + bcEdge N d (N + 1, N)) / 2
  else bcEdge N d p

/-- A point is in the `N × N` interior of the grid. -/
def interior (N : ℤ) (p : ℤ × ℤ) : Prop :=
  1 ≤ p.1 ∧ p.1 ≤ N ∧ 1 ≤ p.2 ∧ p.2 ≤ N

instance (N : ℤ) (p : ℤ × ℤ) : Decidable (interior N p) := by
  unfold interior; infer_instance

/-- The ghost-border invariant of the spec: every edge ghost cell equals its
adjacent interior cell and each ghost corner is the average of its two
adjacent edge-ghost neighbours. -/
def ghostInvariant (N : ℤ) (d : Field) : Prop :=
  (∀ i : ℤ, 1 ≤ i → i ≤ N →
    d (0, i) = d (1, i) ∧ d (N + 1, i) = d (N, i) ∧
    d (i, 0) = d (i, 1) ∧ d (i, N + 1) = d (i, N)) ∧
  d (0, 0) = (d (1, 0) + d (0, 1)) / 2 ∧
  d (0, N + 1) = (d (1, N + 1) + d (0, N)) / 2 ∧
  d (N + 1, 0) = (d (N, 0) + d (N + 1, 1)) / 2 ∧
  d (N + 1, N + 1) = (d (N, N + 1) + d (N + 1, N)) / 2

/-- The everywhere-zero field. -/
def zeroField : Field := fun _ => 0

/-- Modelled from the spec: `CellCenteredScalarGrid::dataPosition` is not under
src/; spec section 4.1 defines it as `origin + index * spacing`
(componentwise), where `origin` is the grid's own origin. -/
def dataPosition (o sp : ℚ × ℚ) (idx : ℤ × ℤ) : ℚ × ℚ :=
  (o.1 + idx.1 * sp.1, o.2 + idx.2 * sp.2)

/-- The two chained one-axis clamps of `advectDensity`
(`x < lo ? lo : x` followed by `x > hi ? hi : x`). -/
def clampAxis (lo hi x : ℚ) : ℚ :=
  if (if x < lo then lo else x) > hi then hi else (if x < lo then lo else x)

/-- Modelled from the spec: the grid's `bounds` and `cellSize`
(`CellCenteredScalarGrid.h` is not under src/).  Spec section 4.1 gives
`dataPosition(index) = origin + index * spacing`, and the spec's advection
clamp invariant `[origin+spacing, origin+(size-2)*spacing]` fixes
`bounds.min = origin`, `bounds.max = origin + (size-1) * spacing` and
`cellSize = spacing`.  `S` is the cell count per axis of the density grid
(`N+2` for a solver of interior size `N`). -/
def boundsMax (o sp : ℚ) (S : ℤ) : ℚ := o + (S - 1) * sp

/-- The back-traced and clamped position at which `GridSolver::advectDensity`
samples the density field for cell `idx`: the cell velocity is read from the
two staggered component arrays at `idx`, the data position is traced back by
`vel * dt`, and each axis is clamped one full cell inside the bounds. -/
def advectSamplePoint (S : ℤ) (o sp : ℚ × ℚ) (u v : Field) (dt : ℚ)
    (idx : ℤ × ℤ) : ℚ × ℚ :=
  (clampAxis (o.1 + sp.1) (boundsMax o.1 sp.1 S - sp.1)
    ((dataPosition o sp idx).1 - u idx * dt),
   clampAxis (o.2 + sp.2) (boundsMax o.2 sp.2 S - sp.2)
    ((dataPosition o sp idx).2 - v idx * dt))

/-- Modelled from the spec: per-axis index and interpolation weight for
`Grid::sample` (the grid containers are not under src/).  Spec section 4.1:
sampling interpolates among neighbouring stored values and clamps
out-of-range axis components to the innermost valid cell, so the normalized
coordinate is clamped to `[0, S-1]` and the base index to at most `S-2`. -/
def gridFrac (o sp : ℚ) (S : ℤ) (x : ℚ) : ℤ × ℚ :=
  (min ⌊max 0 (min ((x - o) / sp) ((S : ℚ) - 1))⌋ (S - 2),
   max 0 (min ((x - o) / sp) ((S : ℚ) - 1)) -
     min ⌊max 0 (min ((x - o) / sp) ((S : ℚ) - 1))⌋ (S - 2))

/-- Modelled from the spec: bilinear sampling of a cell-centered grid at an
arbitrary physical point (spec section 4.1), mixing the four neighbouring
stored values with the per-axis weights of `gridFrac`. -/
def sample (S : ℤ) (o sp : ℚ × ℚ) (d : Field) (p : ℚ × ℚ) : ℚ :=
  (1 - (gridFrac o.1 sp.1 S p.1).2) * (1 - (gridFrac o.2 sp.2 S p.2).2) *
      d ((gridFrac o.1 sp.1 S p.1).1, (gridFrac o.2 sp.2 S p.2).1) +
    (gridFrac o.1 sp.1 S p.1).2 * (1 - (gridFrac o.2 sp.2 S p.2).2) *
      d ((gridFrac o.1 sp.1 S p.1).1 + 1, (gridFrac o.2 sp.2 S p.2).1) +
    (1 - (gridFrac o.1 sp.1 S p.1).2) * (gridFrac o.2 sp.2 S p.2).2 *
      d ((gridFrac o.1 sp.1 S p.1).1, (gridFrac o.2 sp.2 S p.2).1 + 1) +
    (gridFrac o.1 sp.1 S p.1).2 * (gridFrac o.2 sp.2 S p.2).2 *
      d ((gridFrac o.1 sp.1 S p.1).1 + 1, (gridFrac o.2 sp.2 S p.2).1 + 1)

/-- One `GridSolver::advectDensity(idx, dt)` call: overwrite cell `idx` of the
density field with the pre-step field sampled at the clamped back-traced
position (the grid has `S = N+2` cells per axis). -/
def advectDensity (N : ℤ) (o sp : ℚ × ℚ) (u v : Field) (dt : ℚ) (d : Field)
    (idx : ℤ × ℤ) : Field := fun p =>
  if p = idx then sample (N + 2) o sp d (advectSamplePoint (N + 2) o sp u v dt idx)
  else d p

/-- The interior indices `(x, y)`, `1 ≤ x, y ≤ N`, in the traversal order of
`GridSolver::computeAdvection` (`y` outer loop, `x` inner loop). -/
def interiorList (N : ℤ) : List (ℤ × ℤ) :=
  (List.range N.toNat).flatMap fun j : ℕ =>
    (List.range N.toNat).map fun i : ℕ => ((i : ℤ) + 1, (j : ℤ) + 1)

/-- The interior sweep of `GridSolver::computeAdvection`: `advectDensity` is
applied cell after cell, in place (each cell's write is visible to the reads
of later cells, as in the C++ loop). -/
def advectSweep (N : ℤ) (o sp : ℚ × ℚ) (u v : Field) (dt : ℚ) (d : Field) : Field :=
  (interiorList N).foldl (fun dd idx => advectDensity N o sp u v dt dd idx) d

/-- The mutable solver fields: the two staggered velocity component arrays
and the density field.  The collider, emitter and boundary-condition-solver
objects are not modelled: in the sources none of them reads or writes these
three fields during a step (`applyBoundaryCondition`'s call into the
boundary-condition solver is commented out). -/
structure SState where
  u : Field
  v : Field
  d : Field

/-- State-level `GridSolver::applyBoundaryCondition`: refreshes the density
ghost border and touches nothing else. -/
def applyBCState (N : ℤ) (s : SState) : SState :=
  { s with d := applyBoundaryCondition N s.d }

/-- `GridSolver::computeSource`: only reapplies the boundary condition. -/
def computeSource (N : ℤ) (s : SState) : SState := applyBCState N s

/-- `GridSolver::computeViscosity` with the diffusion sub-solver abstracted
as `Dv` (its header is not under src/): when the stored coefficient is
positive (`math::isPositive`, exact-arithmetic reading `0 < visc`), the
velocity pair is replaced by the solver output and the boundary condition is
reapplied; otherwise nothing happens. -/
def computeViscosity (Dv : Field × Field → Field × Field) (visc : ℚ) (N : ℤ)
    (s : SState) : SState :=
  if 0 < visc then
    applyBCState N { s with u := (Dv (s.u, s.v)).1, v := (Dv (s.u, s.v)).2 }
  else s

/-- `GridSolver::computePressure` with the pressure sub-solver abstracted as
`P`: the velocity pair is unconditionally replaced by the solver output and
the boundary condition is reapplied. -/
def computePressure (P : Field × Field → Field × Field) (N : ℤ) (s : SState) : SState :=
  applyBCState N { s with u := (P (s.u, s.v)).1, v := (P (s.u, s.v)).2 }

/-- `GridSolver::computeAdvection`: sweep `advectDensity` over the interior,
then reapply the boundary condition.  (`advectVelocity` is an empty TODO in
the source, so the velocity fields are untouched.) -/
def computeAdvection (N : ℤ) (o sp : ℚ × ℚ) (dt : ℚ) (s : SState) : SState :=
  applyBCState N { s with d := advectSweep N o sp s.u s.v dt s.d }

/-- `GridSolver::beginAdvanceTimeStep`: the collider update, emitter update
and boundary-condition-solver rasterization touch none of the three grid
fields, so on these fields the call is the boundary-condition refresh
followed by the no-op begin hook. -/
def beginAdvanceTimeStep (N : ℤ) (s : SState) : SState := applyBCState N s

/-- `GridSolver::densityStep`: source, viscosity, advection. -/
def densityStep (Dv : Field × Field → Field × Field) (visc : ℚ) (N : ℤ)
    (o sp : ℚ × ℚ) (dt : ℚ) (s : SState) : SState :=
  computeAdvection N o sp dt (computeViscosity Dv visc N (computeSource N s))

/-- `GridSolver::velocityStep`: begin-step, viscosity, pressure, advection,
end-step (the external-forces call is commented out in the source, and
`endAdvanceTimeStep` only invokes a no-op hook). -/
def velocityStep (Dv P : Field × Field → Field × Field) (visc : ℚ) (N : ℤ)
    (o sp : ℚ × ℚ) (dt : ℚ) (s : SState) : SState :=
  computeAdvection N o sp dt
    (computePressure P N (computeViscosity Dv visc N (beginAdvanceTimeStep N s)))

/-- `GridSolver::onAdvanceTimeStep`: one advanced (sub-)time step. -/
def onAdvanceTimeStep (Dv P : Field × Field → Field × Field) (visc : ℚ) (N : ℤ)
    (o sp : ℚ × ℚ) (dt : ℚ) (s : SState) : SState :=
  velocityStep Dv P visc N o sp dt
    (densityStep Dv visc N o sp dt (beginAdvanceTimeStep N s))

/-- `GridSolver::setViscosityCoefficient`: non-positive input is clamped to
zero via `math::max(viscosity, 0)`. -/
def setViscosityCoefficient (viscosity : ℚ) : ℚ := max viscosity 0

/-- The index domain iterated by `forEachIndex` over an `S × S` grid size
(all cell indices, `x` fastest). -/
def indexList (S : ℕ) : List (ℤ × ℤ) :=
  (List.range S).flatMap fun j : ℕ =>
    (List.range S).map fun i : ℕ => ((i : ℤ), (j : ℤ))

/-- The largest component of a 2-D vector.  `Vector<real, D>::max()`
(`Vector3.h`, not under src/) returns the largest coordinate, the library
convention visible in the sources where `cellSize().min()` is used as a
scalar (`PointGrid2.h`). -/
def vmax (w : ℚ × ℚ) : ℚ := max w.1 w.2

/-- `GridSolver::cfl`: fold over all velocity-grid cells, keeping the running
maximum (seeded with `0`) of the largest component of
`valueAtCellCenter(index) + dt * gravity`, then multiply by `dt` and divide
by the smallest spacing component.  `valueAtCellCenter`
(`FaceCenteredGrid.h`, not under src/) is abstracted as the function `vc`
giving the reconstructed cell-center velocity at each index. -/
def cfl (S : ℕ) (vc : ℤ × ℤ → ℚ × ℚ) (g : ℚ × ℚ) (dt : ℚ) (sp : ℚ × ℚ) : ℚ :=
  ((indexList S).foldl
    (fun m idx => max m (vmax ((vc idx).1 + dt * g.1, (vc idx).2 + dt * g.2))) 0)
    * dt / min sp.1 sp.2

/-- The sub-step count as a function of an already-computed CFL number `c`:
`max(ceil(c / maxCfl), 1)` cast to an unsigned count. -/
def subStepsFromCfl (c maxCfl : ℚ) : ℕ := (max ⌈c / maxCfl⌉ 1).toNat

/-- `GridSolver::numberOfSubTimeSteps`: compute the CFL number of the current
state, divide by the max allowed CFL, take the ceiling floored at `1`. -/
def numberOfSubTimeSteps (S : ℕ) (vc : ℤ × ℤ → ℚ × ℚ) (g : ℚ × ℚ) (dt : ℚ)
    (sp : ℚ × ℚ) (maxCfl : ℚ) : ℕ :=
  subStepsFromCfl (cfl S vc g dt sp) maxCfl

/-- Euclidean magnitude of a 2-D vector, used only to state the spec's
reading of the CFL formula. -/
noncomputable def magnitude (w : ℚ × ℚ) : ℝ :=
  Real.sqrt ((w.1 : ℝ) ^ 2 + (w.2 : ℝ) ^ 2)

/-- The CFL formula as the spec words it:
`max_cell(|v + dt*g|) * dt / min(spacing)` with `|.|` the Euclidean
magnitude of the gravity-advanced cell velocity. -/
noncomputable def cflSpecMagnitude (S : ℕ) (vc : ℤ × ℤ → ℚ × ℚ) (g : ℚ × ℚ)
    (dt : ℚ) (sp : ℚ × ℚ) : ℝ :=
  ((indexList S).foldl
    (fun m idx => max m (magnitude ((vc idx).1 + dt * g.1, (vc idx).2 + dt * g.2))) 0)
    * (dt : ℝ) / ((min sp.1 sp.2 : ℚ) : ℝ)

/-- What `GridSolver::cfl` actually computes, worded as the amended claim:
`dt` times the largest (over all cells, together with `0`) component of the
gravity-advanced cell velocity, divided by the smallest spacing component. -/
def cflMaxComponent (S : ℕ) (vc : ℤ × ℤ → ℚ × ℚ) (g : ℚ × ℚ) (dt : ℚ)
    (sp : ℚ × ℚ) : ℚ :=
  dt * (((indexList S).map
      (fun idx => vmax ((vc idx).1 + dt * g.1, (vc idx).2 + dt * g.2))).foldr max 0)
    / min sp.1 sp.2

/-- The calls a stage of `GridSolver` makes, in program order.  Events name
the callee: the collider update, the (no-op) emitter update, the
boundary-condition-solver rasterization, the density boundary refresh, the
begin/end hooks, the two sub-solver invocations, the density advection sweep
and the gravity increment. -/
inductive StageEvent where
  | colliderUpdate
  | emitterUpdate
  | bcRasterize
  | applyBC
  | beginHook
  | endHook
  | diffusionSolve
  | pressureSolve
  | advectRun
  | gravityAdd
deriving DecidableEq

/-- `GridSolver::updateCollider`: calls `collider->update` only when a
collider is attached. -/
def updateColliderTrace (hasCollider : Bool) : List StageEvent :=
  if hasCollider then [StageEvent.colliderUpdate] else []

/-- Call trace of `GridSolver::beginAdvanceTimeStep`. -/
def beginAdvanceTrace (hasCollider : Bool) : List StageEvent :=
  updateColliderTrace hasCollider ++
    [StageEvent.emitterUpdate, StageEvent.bcRasterize, StageEvent.applyBC,
      StageEvent.beginHook]

/-- Call trace of `GridSolver::computeViscosity` (`viscPos` is whether the
stored viscosity coefficient is positive). -/
def computeViscosityTrace (viscPos : Bool) : List StageEvent :=
  if viscPos then [StageEvent.diffusionSolve, StageEvent.applyBC] else []

/-- Call trace of `GridSolver::computePressure`. -/
def computePressureTrace : List StageEvent :=
  [StageEvent.pressureSolve, StageEvent.applyBC]

/-- Call trace of `GridSolver::computeAdvection`. -/
def computeAdvectionTrace : List StageEvent :=
  [StageEvent.advectRun, StageEvent.applyBC]

/-- Call trace of `GridSolver::computeGravity` (`gravityNonzero` is whether
the squared gravity magnitude exceeds the zero threshold). -/
def computeGravityTrace (gravityNonzero : Bool) : List StageEvent :=
  if gravityNonzero then [StageEvent.gravityAdd, StageEvent.applyBC] else []

/-- Call trace of `GridSolver::computeExternalForces`, which just calls
`computeGravity`. -/
def computeExternalForcesTrace (gravityNonzero : Bool) : List StageEvent :=
  computeGravityTrace gravityNonzero

/-- Call trace of `GridSolver::densityStep`: source (a boundary refresh),
viscosity, advection. -/
def densityStepTrace (viscPos : Bool) : List StageEvent :=
  [StageEvent.applyBC] ++ computeViscosityTrace viscPos ++ computeAdvectionTrace

/-- Call trace of `GridSolver::endAdvanceTimeStep`. -/
def endAdvanceTrace : List StageEvent := [StageEvent.endHook]

/-- Call trace of `GridSolver::velocityStep`: begin-step, viscosity,
pressure, advection, end-step.  The `computeExternalForces` call is
commented out in the source, so no external-forces trace appears. -/
def velocityStepTrace (hasCollider viscPos : Bool) : List StageEvent :=
  beginAdvanceTrace hasCollider ++ computeViscosityTrace viscPos ++
    computePressureTrace ++ computeAdvectionTrace ++ endAdvanceTrace

/-- Call trace of `GridSolver::onAdvanceTimeStep`: begin-step, density step,
velocity step, end-step. -/
def onAdvanceTimeStepTrace (hasCollider viscPos : Bool) : List StageEvent :=
  beginAdvanceTrace hasCollider ++ densityStepTrace viscPos ++
    velocityStepTrace hasCollider viscPos ++ endAdvanceTrace

/-- A sample density field: zero except cell `(1, 3)` (the spec's concrete
scenario). -/
def dEx : Field := fun p => if p = (1, 3) then 1 else 0

/-- A sample solver state with zero velocity and `dEx` as density. -/
def sEx : SState := SState.mk zeroField zeroField dEx

/-- A constant cell-center velocity field whose magnitude (5) differs from its
largest component (3). -/
def vcEx : ℤ × ℤ → ℚ × ℚ := fun _ => (3, -4)

/-- An adversarially large constant velocity component array. -/
def uBig : Field := fun _ => 1000000

/-- A uniform-velocity state for the gravity scenario: `u = 2`, `v = 5`. -/
def sC1 : SState := SState.mk (fun _ => 2) (fun _ => 5) zeroField

theorem bcEdge_interior (N : ℤ) (d : Field) (p : ℤ × ℤ) (hp : interior N p) :
    bcEdge N d p = d p := by
  obtain ⟨h1, h2, h3, h4⟩ := hp
  unfold bcEdge
  rw [if_neg, if_neg, if_neg, if_neg] <;> rintro ⟨he, -⟩ <;> omega

theorem applyBC_interior (N : ℤ) (d : Field) (p : ℤ × ℤ) (hp : interior N p) :
    applyBoundaryCondition N d p = d p := by
  obtain ⟨h1, h2, h3, h4⟩ := hp
  unfold applyBoundaryCondition
  rw [if_neg, if_neg, if_neg, if_neg]
  · exact bcEdge_interior N d p ⟨h1, h2, h3, h4⟩
  all_goals intro he
  all_goals rw [Prod.ext_iff] at he
  all_goals simp only at he
  all_goals omega

theorem applyBC_left (N : ℤ) (d : Field) (i : ℤ) (h1 : 1 ≤ i) (h2 : i ≤ N) :
    applyBoundaryCondition N d (0, i) = d (1, i) := by
  unfold applyBoundaryCondition
  rw [if_neg, if_neg, if_neg, if_neg]
  · unfold bcEdge
    rw [if_pos ⟨rfl, h1, h2⟩]
  all_goals intro he
  all_goals rw [Prod.ext_iff] at he
  all_goals simp only at he
  all_goals omega

theorem applyBC_right (N : ℤ) (d : Field) (i : ℤ) (h1 : 1 ≤ i) (h2 : i ≤ N) :
    applyBoundaryCondition N d (N + 1, i) = d (N, i) := by
  unfold applyBoundaryCondition
  rw [if_neg, if_neg, if_neg, if_neg]
  · unfold bcEdge
    rw [if_neg, if_pos ⟨rfl, h1, h2⟩]
    rintro ⟨he, -⟩; omega
  all_goals intro he
  all_goals rw [Prod.ext_iff] at he
  all_goals simp only at he
  all_goals omega

theorem applyBC_bottom (N : ℤ) (d : Field) (i : ℤ) (h1 : 1 ≤ i) (h2 : i ≤ N) :
    applyBoundaryCondition N d (i, 0) = d (i, 1) := by
  unfold applyBoundaryCondition
  rw [if_neg, if_neg, if_neg, if_neg]
  · unfold bcEdge
    rw [if_neg, if_neg, if_pos ⟨rfl, h1, h2⟩] <;> rintro ⟨he, hr, hr2⟩ <;> omega
  all_goals intro he
  all_goals rw [Prod.ext_iff] at he
  all_goals simp only at he
  all_goals omega

theorem applyBC_top (N : ℤ) (d : Field) (i : ℤ) (h1 : 1 ≤ i) (h2 : i ≤ N) :
    applyBoundaryCondition N d (i, N + 1) = d (i, N) := by
  unfold applyBoundaryCondition
  rw [if_neg, if_neg, if_neg, if_neg]
  · unfold bcEdge
    rw [if_neg, if_neg, if_neg, if_pos ⟨rfl, h1, h2⟩] <;> rintro ⟨he, hr, hr2⟩ <;> omega
  all_goals intro he
  all_goals rw [Prod.ext_iff] at he
  all_goals simp only at he
  all_goals omega

theorem applyBC_c00 (N : ℤ) (d : Field) (hN : 1 ≤ N) :
    applyBoundaryCondition N d (0, 0) = d (1, 1) := by
  unfold applyBoundaryCondition
  rw [if_pos rfl]
  unfold bcEdge
  rw [if_neg, if_neg, if_pos ⟨rfl, le_refl 1, hN⟩, if_pos ⟨rfl, le_refl 1, hN⟩]
  · ring
  all_goals rintro ⟨he, hr, hr2⟩; omega

theorem applyBC_c01 (N : ℤ) (d : Field) (hN : 1 ≤ N) :
    applyBoundaryCondition N d (0, N + 1) = d (1, N) := by
  unfold applyBoundaryCondition
  rw [if_neg, if_pos rfl]
  · unfold bcEdge
    rw [if_neg, if_neg, if_neg, if_pos ⟨rfl, le_refl 1, hN⟩, if_pos ⟨rfl, hN, le_refl N⟩]
    · ring
    all_goals rintro ⟨he, hr, hr2⟩; omega
  · intro he
    rw [Prod.ext_iff] at he
    simp only at he
    omega

theorem applyBC_c10 (N : ℤ) (d : Field) (hN : 1 ≤ N) :
    applyBoundaryCondition N d (N + 1, 0) = d (N, 1) := by
  unfold applyBoundaryCondition
  rw [if_neg, if_neg, if_pos rfl]
  · unfold bcEdge
    rw [if_neg, if_neg, if_pos ⟨rfl, hN, le_refl N⟩, if_neg, if_pos ⟨rfl, le_refl 1, hN⟩]
    · ring
    all_goals rintro ⟨he, hr, hr2⟩; omega
  all_goals intro he
  all_goals rw [Prod.ext_iff] at he
  all_goals simp only at he
  all_goals omega

theorem applyBC_c11 (N : ℤ) (d : Field) (hN : 1 ≤ N) :
    applyBoundaryCondition N d (N + 1, N + 1) = d (N, N) := by
  unfold applyBoundaryCondition
  rw [if_neg, if_neg, if_neg, if_pos rfl]
  · unfold bcEdge
    rw [if_neg, if_neg, if_neg, if_pos ⟨rfl, hN, le_refl N⟩, if_neg,
      if_pos ⟨rfl, hN, le_refl N⟩]
    · ring
    all_goals rintro ⟨he, hr, hr2⟩; omega
  all_goals intro he
  all_goals rw [Prod.ext_iff] at he
  all_goals simp only at he
  all_goals omega

theorem applyBC_fallthrough (N : ℤ) (d : Field) (a b : ℤ)
    (h1 : ¬(a = 0 ∧ 1 ≤ b ∧ b ≤ N)) (h2 : ¬(a = N + 1 ∧ 1 ≤ b ∧ b ≤ N))
    (h3 : ¬(b = 0 ∧ 1 ≤ a ∧ a ≤ N)) (h4 : ¬(b = N + 1 ∧ 1 ≤ a ∧ a ≤ N))
    (h5 : ¬(a = 0 ∧ b = 0)) (h6 : ¬(a = 0 ∧ b = N + 1))
    (h7 : ¬(a = N + 1 ∧ b = 0)) (h8 : ¬(a = N + 1 ∧ b = N + 1)) :
    applyBoundaryCondition N d (a, b) = d (a, b) := by
  unfold applyBoundaryCondition
  rw [if_neg, if_neg, if_neg, if_neg]
  · unfold bcEdge
    rw [if_neg h1, if_neg h2, if_neg h3, if_neg h4]
  all_goals intro he
  all_goals rw [Prod.ext_iff] at he
  all_goals simp only at he
  all_goals omega

theorem ghostInvariant_applyBC (N : ℤ) (d : Field) (hN : 1 ≤ N) :
    ghostInvariant N (applyBoundaryCondition N d) := by
  refine ⟨fun i h1 h2 => ?_, ?_, ?_, ?_, ?_⟩
  · exact ⟨by rw [applyBC_left N d i h1 h2, applyBC_interior N d (1, i) ⟨le_refl 1, hN, h1, h2⟩],
      by rw [applyBC_right N d i h1 h2, applyBC_interior N d (N, i) ⟨hN, le_refl N, h1, h2⟩],
      by rw [applyBC_bottom N d i h1 h2, applyBC_interior N d (i, 1) ⟨h1, h2, le_refl 1, hN⟩],
      by rw [applyBC_top N d i h1 h2, applyBC_interior N d (i, N) ⟨h1, h2, hN, le_refl N⟩]⟩
  · rw [applyBC_c00 N d hN, applyBC_bottom N d 1 (le_refl 1) hN,
      applyBC_left N d 1 (le_refl 1) hN]
    ring
  · rw [applyBC_c01 N d hN, applyBC_top N d 1 (le_refl 1) hN,
      applyBC_left N d N hN (le_refl N)]
    ring
  · rw [applyBC_c10 N d hN, applyBC_bottom N d N hN (le_refl N),
      applyBC_right N d 1 (le_refl 1) hN]
    ring
  · rw [applyBC_c11 N d hN, applyBC_top N d N hN (le_refl N),
      applyBC_right N d N hN (le_refl N)]
    ring

theorem applyBC_idem (N : ℤ) (d : Field) (hN : 1 ≤ N) :
    applyBoundaryCondition N (applyBoundaryCondition N d) = applyBoundaryCondition N d := by
  funext p
  obtain ⟨a, b⟩ := p
  by_cases h5 : a = 0 ∧ b = 0
  · obtain ⟨rfl, rfl⟩ := h5
    rw [applyBC_c00 N _ hN, applyBC_c00 N d hN,
      applyBC_interior N d (1, 1) ⟨le_refl 1, hN, le_refl 1, hN⟩]
  by_cases h6 : a = 0 ∧ b = N + 1
  · obtain ⟨rfl, rfl⟩ := h6
    rw [applyBC_c01 N _ hN, applyBC_c01 N d hN,
      applyBC_interior N d (1, N) ⟨le_refl 1, hN, hN, le_refl N⟩]
  by_cases h7 : a = N + 1 ∧ b = 0
  · obtain ⟨rfl, rfl⟩ := h7
    rw [applyBC_c10 N _ hN, applyBC_c10 N d hN,
      applyBC_interior N d (N, 1) ⟨hN, le_refl N, le_refl 1, hN⟩]
  by_cases h8 : a = N + 1 ∧ b = N + 1
  · obtain ⟨rfl, rfl⟩ := h8
    rw [applyBC_c11 N _ hN, applyBC_c11 N d hN,
      applyBC_interior N d (N, N) ⟨hN, le_refl N, hN, le_refl N⟩]
  by_cases h1 : a = 0 ∧ 1 ≤ b ∧ b ≤ N
  · obtain ⟨rfl, hb1, hb2⟩ := h1
    rw [applyBC_left N _ b hb1 hb2, applyBC_left N d b hb1 hb2,
      applyBC_interior N d (1, b) ⟨le_refl 1, hN, hb1, hb2⟩]
  by_cases h2 : a = N + 1 ∧ 1 ≤ b ∧ b ≤ N
  · obtain ⟨rfl, hb1, hb2⟩ := h2
    rw [applyBC_right N _ b hb1 hb2, applyBC_right N d b hb1 hb2,
      applyBC_interior N d (N, b) ⟨hN, le_refl N, hb1, hb2⟩]
  by_cases h3 : b = 0 ∧ 1 ≤ a ∧ a ≤ N
  · obtain ⟨rfl, ha1, ha2⟩ := h3
    rw [applyBC_bottom N _ a ha1 ha2, applyBC_bottom N d a ha1 ha2,
      applyBC_interior N d (a, 1) ⟨ha1, ha2, le_refl 1, hN⟩]
  by_cases h4 : b = N + 1 ∧ 1 ≤ a ∧ a ≤ N
  · obtain ⟨rfl, ha1, ha2⟩ := h4
    rw [applyBC_top N _ a ha1 ha2, applyBC_top N d a ha1 ha2,
      applyBC_interior N d (a, N) ⟨ha1, ha2, hN, le_refl N⟩]
  · rw [applyBC_fallthrough N _ a b h1 h2 h3 h4 h5 h6 h7 h8,
      applyBC_fallthrough N d a b h1 h2 h3 h4 h5 h6 h7 h8]

theorem clampAxis_mem (lo hi x : ℚ) (h : lo ≤ hi) :
    lo ≤ clampAxis lo hi x ∧ clampAxis lo hi x ≤ hi := by
  unfold clampAxis
  split_ifs with h1 h2 h3 <;> constructor <;> linarith

theorem clampAxis_id (lo hi x : ℚ) (h1 : lo ≤ x) (h2 : x ≤ hi) :
    clampAxis lo hi x = x := by
  unfold clampAxis
  rw [if_neg (not_lt.2 h1), if_neg (not_lt.2 h2)]

theorem gridFrac_node (o sp : ℚ) (S k : ℤ) (hsp : 0 < sp) (hk0 : 0 ≤ k)
    (hk : k ≤ S - 2) : gridFrac o sp S (o + k * sp) = (k, 0) := by
  have hr : (o + (k : ℚ) * sp - o) / sp = (k : ℚ) := by
    field_simp
  have hk1 : (k : ℚ) ≤ (S : ℚ) - 1 := by
    have : ((k : ℤ) : ℚ) ≤ ((S - 1 : ℤ) : ℚ) := by exact_mod_cast (by omega : k ≤ S - 1)
    push_cast at this
    linarith
  have hk0q : (0 : ℚ) ≤ (k : ℚ) := by exact_mod_cast hk0
  unfold gridFrac
  rw [hr, min_eq_left hk1, max_eq_right hk0q, Int.floor_intCast, min_eq_left hk]
  rw [sub_self]

theorem sample_node (S : ℤ) (o sp : ℚ × ℚ) (d : Field) (k l : ℤ)
    (hsp1 : 0 < sp.1) (hsp2 : 0 < sp.2) (hk0 : 0 ≤ k) (hk : k ≤ S - 2)
    (hl0 : 0 ≤ l) (hl : l ≤ S - 2) :
    sample S o sp d (o.1 + k * sp.1, o.2 + l * sp.2) = d (k, l) := by
  unfold sample
  rw [gridFrac_node o.1 sp.1 S k hsp1 hk0 hk, gridFrac_node o.2 sp.2 S l hsp2 hl0 hl]
  simp

theorem foldl_fixed {α β : Type} (f : α → β → α) (l : List β) (a : α)
    (h : ∀ x ∈ l, ∀ b, f b x = b) : l.foldl f a = a := by
  induction l generalizing a with
  | nil => rfl
  | cons x xs ih =>
    rw [List.foldl_cons, h x (List.mem_cons_self x xs) a]
    exact ih a fun y hy b => h y (List.mem_cons_of_mem x hy) b

theorem mem_interiorList (N : ℤ) (p : ℤ × ℤ) (hp : p ∈ interiorList N) :
    interior N p := by
  unfold interiorList at hp
  rw [List.mem_flatMap] at hp
  obtain ⟨j, hj, hp⟩ := hp
  rw [List.mem_map] at hp
  obtain ⟨i, hi, heq⟩ := hp
  rw [List.mem_range] at hj hi
  subst heq
  exact ⟨by omega, by omega, by omega, by omega⟩

theorem advectSamplePoint_zero (N : ℤ) (o sp : ℚ × ℚ) (dt : ℚ) (idx : ℤ × ℤ)
    (hsp1 : 0 < sp.1) (hsp2 : 0 < sp.2) (hidx : interior N idx) :
    advectSamplePoint (N + 2) o sp zeroField zeroField dt idx =
      dataPosition o sp idx := by
  obtain ⟨h1, h2, h3, h4⟩ := hidx
  have c1 : (1 : ℚ) ≤ (idx.1 : ℚ) := by exact_mod_cast h1
  have c2 : (idx.1 : ℚ) ≤ (N : ℚ) := by exact_mod_cast h2
  have c3 : (1 : ℚ) ≤ (idx.2 : ℚ) := by exact_mod_cast h3
  have c4 : (idx.2 : ℚ) ≤ (N : ℚ) := by exact_mod_cast h4
  have m1 : sp.1 ≤ (idx.1 : ℚ) * sp.1 := le_mul_of_one_le_left hsp1.le c1
  have m2 : (idx.1 : ℚ) * sp.1 ≤ (N : ℚ) * sp.1 :=
    mul_le_mul_of_nonneg_right c2 hsp1.le
  have m3 : sp.2 ≤ (idx.2 : ℚ) * sp.2 := le_mul_of_one_le_left hsp2.le c3
  have m4 : (idx.2 : ℚ) * sp.2 ≤ (N : ℚ) * sp.2 :=
    mul_le_mul_of_nonneg_right c4 hsp2.le
  have hb1 : boundsMax o.1 sp.1 (N + 2) - sp.1 = o.1 + (N : ℚ) * sp.1 := by
    unfold boundsMax
    push_cast
    ring
  have hb2 : boundsMax o.2 sp.2 (N + 2) - sp.2 = o.2 + (N : ℚ) * sp.2 := by
    unfold boundsMax
    push_cast
    ring
  unfold advectSamplePoint zeroField dataPosition
  rw [hb1, hb2]
  simp only [zero_mul, sub_zero]
  rw [clampAxis_id _ _ _ (by linarith) (by linarith),
    clampAxis_id _ _ _ (by linarith) (by linarith)]

theorem advectDensity_zero (N : ℤ) (o sp : ℚ × ℚ) (dt : ℚ) (d : Field)
    (idx : ℤ × ℤ) (hsp1 : 0 < sp.1) (hsp2 : 0 < sp.2) (hidx : interior N idx) :
    advectDensity N o sp zeroField zeroField dt d idx = d := by
  funext p
  unfold advectDensity
  by_cases hp : p = idx
  · subst hp
    rw [if_pos rfl, advectSamplePoint_zero N o sp dt p hsp1 hsp2 hidx]
    obtain ⟨h1, h2, h3, h4⟩ := hidx
    unfold dataPosition
    rw [sample_node (N + 2) o sp d p.1 p.2 hsp1 hsp2 (by omega) (by omega)
      (by omega) (by omega)]
  · rw [if_neg hp]

theorem advectSweep_zero (N : ℤ) (o sp : ℚ × ℚ) (dt : ℚ) (d : Field)
    (hsp1 : 0 < sp.1) (hsp2 : 0 < sp.2) :
    advectSweep N o sp zeroField zeroField dt d = d := by
  unfold advectSweep
  exact foldl_fixed _ _ _ (fun idx hidx dd =>
    advectDensity_zero N o sp dt dd idx hsp1 hsp2 (mem_interiorList N idx hidx))

/-- C9: `applyBoundaryCondition` writes only the ghost border of the density
field: every interior density cell and both velocity component arrays are
unchanged by it. -/
theorem C9_applyBC_frame (N : ℤ) (s : SState) (p : ℤ × ℤ) (hp : interior N p) :
    (applyBCState N s).u = s.u ∧ (applyBCState N s).v = s.v ∧
    (applyBCState N s).d p = s.d p :=
  ⟨rfl, rfl, applyBC_interior N s.d p hp⟩

theorem C9_applyBC_frame_witness :
    (applyBCState 4 sEx).u = sEx.u ∧ (applyBCState 4 sEx).v = sEx.v ∧
    (applyBCState 4 sEx).d (1, 3) = sEx.d (1, 3) :=
  C9_applyBC_frame 4 sEx (1, 3) (by decide)

/-- C10: `applyBoundaryCondition` is idempotent — applying it twice yields
exactly the field obtained by applying it once. -/
theorem C10_applyBC_idempotent (N : ℤ) (d : Field) (hN : 1 ≤ N) :
    applyBoundaryCondition N (applyBoundaryCondition N d) =
      applyBoundaryCondition N d :=
  applyBC_idem N d hN

theorem C10_applyBC_idempotent_witness :
    applyBoundaryCondition 4 (applyBoundaryCondition 4 dEx) =
      applyBoundaryCondition 4 dEx :=
  C10_applyBC_idempotent 4 dEx (by decide)

/-- C8: `setViscosityCoefficient` clamps every non-positive argument to
exactly `0`, and with a non-positive stored coefficient the diffusion stage
(`computeViscosity`) leaves every velocity sample — indeed the whole state —
unchanged. -/
theorem C8_nonpositive_viscosity_noop (x visc : ℚ)
    (Dv : Field × Field → Field × Field) (N : ℤ) (s : SState)
    (hx : x ≤ 0) (hvisc : visc ≤ 0) :
    setViscosityCoefficient x = 0 ∧
    (computeViscosity Dv visc N s).u = s.u ∧
    (computeViscosity Dv visc N s).v = s.v ∧
    (computeViscosity Dv visc N s).d = s.d := by
  unfold setViscosityCoefficient computeViscosity
  rw [if_neg (not_lt.2 hvisc)]
  exact ⟨max_eq_right hx, rfl, rfl, rfl⟩

theorem C8_nonpositive_viscosity_noop_witness :
    setViscosityCoefficient (-1) = 0 ∧
    (computeViscosity id (-3) 4 sEx).u = sEx.u ∧
    (computeViscosity id (-3) 4 sEx).v = sEx.v ∧
    (computeViscosity id (-3) 4 sEx).d = sEx.d :=
  C8_nonpositive_viscosity_noop (-1) (-3) id 4 sEx (by decide) (by decide)

/-- C6: for every velocity field, time interval and interior cell index, the
back-traced point at which `advectDensity` samples the density field lies,
on each axis, within `[origin + spacing, origin + (size-2)*spacing]` — one
full cell inside the domain bounds. -/
theorem C6_backtrace_clamped (N : ℤ) (o sp : ℚ × ℚ) (u v : Field) (dt : ℚ)
    (idx : ℤ × ℤ) (hN : 1 ≤ N) (hsp1 : 0 < sp.1) (hsp2 : 0 < sp.2)
    (hidx : interior N idx) :
    o.1 + sp.1 ≤ (advectSamplePoint (N + 2) o sp u v dt idx).1 ∧
    (advectSamplePoint (N + 2) o sp u v dt idx).1 ≤
      o.1 + ((N + 2 - 2 : ℤ) : ℚ) * sp.1 ∧
    o.2 + sp.2 ≤ (advectSamplePoint (N + 2) o sp u v dt idx).2 ∧
    (advectSamplePoint (N + 2) o sp u v dt idx).2 ≤
      o.2 + ((N + 2 - 2 : ℤ) : ℚ) * sp.2 := by
  have hNq : (1 : ℚ) ≤ (N : ℚ) := by exact_mod_cast hN
  have hb1 : boundsMax o.1 sp.1 (N + 2) - sp.1 = o.1 + ((N + 2 - 2 : ℤ) : ℚ) * sp.1 := by
    unfold boundsMax
    push_cast
    ring
  have hb2 : boundsMax o.2 sp.2 (N + 2) - sp.2 = o.2 + ((N + 2 - 2 : ℤ) : ℚ) * sp.2 := by
    unfold boundsMax
    push_cast
    ring
  have hw1 : o.1 + sp.1 ≤ o.1 + ((N + 2 - 2 : ℤ) : ℚ) * sp.1 := by
    have : sp.1 ≤ (N : ℚ) * sp.1 := le_mul_of_one_le_left hsp1.le hNq
    push_cast
    linarith
  have hw2 : o.2 + sp.2 ≤ o.2 + ((N + 2 - 2 : ℤ) : ℚ) * sp.2 := by
    have : sp.2 ≤ (N : ℚ) * sp.2 := le_mul_of_one_le_left hsp2.le hNq
    push_cast
    linarith
  unfold advectSamplePoint
  rw [hb1, hb2]
  exact ⟨(clampAxis_mem _ _ _ hw1).1, (clampAxis_mem _ _ _ hw1).2,
    (clampAxis_mem _ _ _ hw2).1, (clampAxis_mem _ _ _ hw2).2⟩

theorem C6_backtrace_clamped_witness :
    (0 : ℚ) + 1 ≤ (advectSamplePoint (1 + 2) (0, 0) (1, 1) uBig uBig 1 (1, 1)).1 ∧
    (advectSamplePoint (1 + 2) (0, 0) (1, 1) uBig uBig 1 (1, 1)).1 ≤
      (0 : ℚ) + ((1 + 2 - 2 : ℤ) : ℚ) * 1 ∧
    (0 : ℚ) + 1 ≤ (advectSamplePoint (1 + 2) (0, 0) (1, 1) uBig uBig 1 (1, 1)).2 ∧
    (advectSamplePoint (1 + 2) (0, 0) (1, 1) uBig uBig 1 (1, 1)).2 ≤
      (0 : ℚ) + ((1 + 2 - 2 : ℤ) : ℚ) * 1 :=
  C6_backtrace_clamped 1 (0, 0) (1, 1) uBig uBig 1 (1, 1) (by decide) (by decide)
    (by decide) (by decide)

/-- C4: within one advanced step, the density ghost-border invariant holds
after each completed stage — after BeginStep, after DensityStep and after
VelocityStep — for every state, every configuration and arbitrary
diffusion/pressure sub-solver behaviour. -/
theorem C4_ghost_invariant_after_stages (Dv P : Field × Field → Field × Field)
    (visc : ℚ) (N : ℤ) (o sp : ℚ × ℚ) (dt : ℚ) (s : SState) (hN : 1 ≤ N) :
    ghostInvariant N (beginAdvanceTimeStep N s).d ∧
    ghostInvariant N (densityStep Dv visc N o sp dt (beginAdvanceTimeStep N s)).d ∧
    ghostInvariant N (velocityStep Dv P visc N o sp dt
      (densityStep Dv visc N o sp dt (beginAdvanceTimeStep N s))).d := by
  refine ⟨ghostInvariant_applyBC N s.d hN, ?_, ?_⟩
  · show ghostInvariant N (applyBoundaryCondition N _)
    exact ghostInvariant_applyBC N _ hN
  · show ghostInvariant N (applyBoundaryCondition N _)
    exact ghostInvariant_applyBC N _ hN

theorem C4_ghost_invariant_after_stages_witness :
    ghostInvariant 4 (beginAdvanceTimeStep 4 sEx).d ∧
    ghostInvariant 4 (densityStep id 0 4 (-1, -1) (1, 1) (1/10)
      (beginAdvanceTimeStep 4 sEx)).d ∧
    ghostInvariant 4 (velocityStep id id 0 4 (-1, -1) (1, 1) (1/10)
      (densityStep id 0 4 (-1, -1) (1, 1) (1/10) (beginAdvanceTimeStep 4 sEx))).d :=
  C4_ghost_invariant_after_stages id id 0 4 (-1, -1) (1, 1) (1/10) sEx (by decide)

theorem stage_zero_bc (N : ℤ) (s : SState) (hu : s.u = zeroField)
    (hv : s.v = zeroField) :
    (applyBCState N s).u = zeroField ∧ (applyBCState N s).v = zeroField ∧
    ∀ p, interior N p → (applyBCState N s).d p = s.d p :=
  ⟨hu, hv, fun p hp => applyBC_interior N s.d p hp⟩

theorem stage_zero_viscosity (Dv : Field × Field → Field × Field) (visc : ℚ)
    (N : ℤ) (s : SState) (hu : s.u = zeroField) (hv : s.v = zeroField)
    (hD : Dv (zeroField, zeroField) = (zeroField, zeroField)) :
    (computeViscosity Dv visc N s).u = zeroField ∧
    (computeViscosity Dv visc N s).v = zeroField ∧
    ∀ p, interior N p → (computeViscosity Dv visc N s).d p = s.d p := by
  unfold computeViscosity
  by_cases h : 0 < visc
  · rw [if_pos h, hu, hv, hD]
    exact ⟨rfl, rfl, fun p hp => applyBC_interior N s.d p hp⟩
  · rw [if_neg h]
    exact ⟨hu, hv, fun p hp => rfl⟩

theorem stage_zero_pressure (P : Field × Field → Field × Field) (N : ℤ)
    (s : SState) (hu : s.u = zeroField) (hv : s.v = zeroField)
    (hP : P (zeroField, zeroField) = (zeroField, zeroField)) :
    (computePressure P N s).u = zeroField ∧
    (computePressure P N s).v = zeroField ∧
    ∀ p, interior N p → (computePressure P N s).d p = s.d p := by
  unfold computePressure
  rw [hu, hv, hP]
  exact ⟨rfl, rfl, fun p hp => applyBC_interior N s.d p hp⟩

theorem stage_zero_advection (N : ℤ) (o sp : ℚ × ℚ) (dt : ℚ) (s : SState)
    (hu : s.u = zeroField) (hv : s.v = zeroField)
    (hsp1 : 0 < sp.1) (hsp2 : 0 < sp.2) :
    (computeAdvection N o sp dt s).u = zeroField ∧
    (computeAdvection N o sp dt s).v = zeroField ∧
    ∀ p, interior N p → (computeAdvection N o sp dt s).d p = s.d p := by
  refine ⟨hu, hv, fun p hp => ?_⟩
  show applyBoundaryCondition N (advectSweep N o sp s.u s.v dt s.d) p = s.d p
  rw [hu, hv, advectSweep_zero N o sp dt s.d hsp1 hsp2,
    applyBC_interior N s.d p hp]

/-- C7: with zero velocity everywhere and zero gravity, one advanced step
leaves every interior density cell exactly unchanged; only ghost-border
cells may change, and they satisfy the edge-copy/corner-average rule.
(The sub-solvers are abstract; the hypotheses `hD`/`hP` state the spec
contract that diffusing or projecting the zero velocity field returns the
zero field.) -/
theorem C7_zero_velocity_step_fixes_density (Dv P : Field × Field → Field × Field)
    (visc : ℚ) (N : ℤ) (o sp : ℚ × ℚ) (dt : ℚ) (g : ℚ × ℚ) (s : SState)
    (hN : 1 ≤ N) (hsp1 : 0 < sp.1) (hsp2 : 0 < sp.2) (hg : g = (0, 0))
    (hu : s.u = zeroField) (hv : s.v = zeroField)
    (hD : Dv (zeroField, zeroField) = (zeroField, zeroField))
    (hP : P (zeroField, zeroField) = (zeroField, zeroField)) :
    (∀ p, interior N p → (onAdvanceTimeStep Dv P visc N o sp dt s).d p = s.d p) ∧
    ghostInvariant N (onAdvanceTimeStep Dv P visc N o sp dt s).d := by
  obtain ⟨u1, v1, d1⟩ := stage_zero_bc N s hu hv
  obtain ⟨u2, v2, d2⟩ := stage_zero_bc N _ u1 v1
  obtain ⟨u3, v3, d3⟩ := stage_zero_viscosity Dv visc N _ u2 v2 hD
  obtain ⟨u4, v4, d4⟩ := stage_zero_advection N o sp dt _ u3 v3 hsp1 hsp2
  obtain ⟨u5, v5, d5⟩ := stage_zero_bc N _ u4 v4
  obtain ⟨u6, v6, d6⟩ := stage_zero_viscosity Dv visc N _ u5 v5 hD
  obtain ⟨u7, v7, d7⟩ := stage_zero_pressure P N _ u6 v6 hP
  obtain ⟨u8, v8, d8⟩ := stage_zero_advection N o sp dt _ u7 v7 hsp1 hsp2
  constructor
  · intro p hp
    simp only [onAdvanceTimeStep, velocityStep, densityStep, computeSource,
      beginAdvanceTimeStep]
    rw [d8 p hp, d7 p hp, d6 p hp, d5 p hp, d4 p hp, d3 p hp, d2 p hp, d1 p hp]
  · simp only [onAdvanceTimeStep, velocityStep, densityStep, computeSource,
      beginAdvanceTimeStep]
    show ghostInvariant N (applyBoundaryCondition N _)
    exact ghostInvariant_applyBC N _ hN

theorem C7_zero_velocity_step_fixes_density_witness :
    (onAdvanceTimeStep id id 0 4 (-1, -1) (1, 1) (1/10) sEx).d (1, 3) =
      sEx.d (1, 3) :=
  (C7_zero_velocity_step_fixes_density id id 0 4 (-1, -1) (1, 1) (1/10) (0, 0)
    sEx (by decide) (by decide) (by decide) rfl rfl rfl rfl rfl).1 (1, 3) (by decide)

theorem cfl_vcEx_eq : cfl 3 vcEx (0, 0) 1 (1, 1) = 3 := by
  have hl : indexList 3 = [((0 : ℤ), (0 : ℤ)), (1, 0), (2, 0), (0, 1), (1, 1),
      (2, 1), (0, 2), (1, 2), (2, 2)] := by decide
  unfold cfl
  rw [hl]
  simp only [List.foldl_cons, List.foldl_nil, vcEx, vmax]
  norm_num

/-- C5: `numberOfSubTimeSteps` returns `ceil(cfl / maxCfl)` floored at `1`:
it is the least count that is at least `1` and at least `cfl / maxCfl`, it
is always at least `1`, and it is monotone non-decreasing in the computed
CFL number. -/
theorem C5_substep_count (S : ℕ) (vc : ℤ × ℤ → ℚ × ℚ) (g : ℚ × ℚ) (dt : ℚ)
    (sp : ℚ × ℚ) (m c' : ℚ) (hm : 0 < m) (hcc : cfl S vc g dt sp ≤ c') :
    numberOfSubTimeSteps S vc g dt sp m = subStepsFromCfl (cfl S vc g dt sp) m ∧
    1 ≤ numberOfSubTimeSteps S vc g dt sp m ∧
    cfl S vc g dt sp / m ≤ (numberOfSubTimeSteps S vc g dt sp m : ℚ) ∧
    (∀ k : ℕ, 1 ≤ k → cfl S vc g dt sp / m ≤ (k : ℚ) →
      numberOfSubTimeSteps S vc g dt sp m ≤ k) ∧
    numberOfSubTimeSteps S vc g dt sp m ≤ subStepsFromCfl c' m := by
  have hone : ∀ c : ℚ, (1 : ℤ) ≤ max ⌈c / m⌉ 1 := fun c => le_max_right _ _
  refine ⟨rfl, ?_, ?_, ?_, ?_⟩
  · have := hone (cfl S vc g dt sp)
    unfold numberOfSubTimeSteps subStepsFromCfl
    omega
  · unfold numberOfSubTimeSteps subStepsFromCfl
    have h1 : cfl S vc g dt sp / m ≤ (⌈cfl S vc g dt sp / m⌉ : ℚ) := Int.le_ceil _
    have h2 : (⌈cfl S vc g dt sp / m⌉ : ℤ) ≤ max ⌈cfl S vc g dt sp / m⌉ 1 :=
      le_max_left _ _
    have h3 : (((max ⌈cfl S vc g dt sp / m⌉ 1).toNat : ℤ) : ℚ) =
        ((max ⌈cfl S vc g dt sp / m⌉ 1 : ℤ) : ℚ) := by
      rw [Int.toNat_of_nonneg (by have := hone (cfl S vc g dt sp); omega)]
    calc cfl S vc g dt sp / m ≤ (⌈cfl S vc g dt sp / m⌉ : ℚ) := h1
      _ ≤ ((max ⌈cfl S vc g dt sp / m⌉ 1 : ℤ) : ℚ) := by exact_mod_cast h2
      _ = (((max ⌈cfl S vc g dt sp / m⌉ 1).toNat : ℤ) : ℚ) := h3.symm
      _ = (((max ⌈cfl S vc g dt sp / m⌉ 1).toNat : ℕ) : ℚ) := by push_cast; ring
  · intro k hk hck
    unfold numberOfSubTimeSteps subStepsFromCfl
    have h1 : ⌈cfl S vc g dt sp / m⌉ ≤ (k : ℤ) :=
      Int.ceil_le.2 (by exact_mod_cast hck)
    have h2 : max ⌈cfl S vc g dt sp / m⌉ 1 ≤ (k : ℤ) :=
      max_le h1 (by exact_mod_cast hk)
    omega
  · unfold numberOfSubTimeSteps subStepsFromCfl
    have h1 : cfl S vc g dt sp / m ≤ c' / m := by gcongr
    have h2 : ⌈cfl S vc g dt sp / m⌉ ≤ ⌈c' / m⌉ := Int.ceil_mono h1
    have h3 : max ⌈cfl S vc g dt sp / m⌉ 1 ≤ max ⌈c' / m⌉ 1 :=
      max_le_max h2 le_rfl
    omega

theorem C5_substep_count_witness :
    numberOfSubTimeSteps 3 vcEx (0, 0) 1 (1, 1) 2 =
      subStepsFromCfl (cfl 3 vcEx (0, 0) 1 (1, 1)) 2 ∧
    1 ≤ numberOfSubTimeSteps 3 vcEx (0, 0) 1 (1, 1) 2 ∧
    cfl 3 vcEx (0, 0) 1 (1, 1) / 2 ≤
      (numberOfSubTimeSteps 3 vcEx (0, 0) 1 (1, 1) 2 : ℚ) ∧
    (∀ k : ℕ, 1 ≤ k → cfl 3 vcEx (0, 0) 1 (1, 1) / 2 ≤ (k : ℚ) →
      numberOfSubTimeSteps 3 vcEx (0, 0) 1 (1, 1) 2 ≤ k) ∧
    numberOfSubTimeSteps 3 vcEx (0, 0) 1 (1, 1) 2 ≤ subStepsFromCfl 7 2 :=
  C5_substep_count 3 vcEx (0, 0) 1 (1, 1) 2 7 (by norm_num)
    (by rw [cfl_vcEx_eq]; norm_num)

theorem foldr_max_seed (l : List ℚ) (a b : ℚ) :
    l.foldr max (max a b) = max a (l.foldr max b) := by
  induction l with
  | nil => rfl
  | cons x xs ih =>
    simp only [List.foldr_cons, ih]
    rw [max_left_comm]

theorem foldl_max_eq_foldr_max (l : List ℚ) (a : ℚ) :
    l.foldl max a = l.foldr max a := by
  induction l generalizing a with
  | nil => rfl
  | cons x xs ih =>
    rw [List.foldl_cons, ih (max a x), max_comm a x, foldr_max_seed xs x a,
      List.foldr_cons]

/-- C2 (amended): `cfl` returns `dt` times the largest — over all cells,
together with the seed `0` — *component* of the gravity-advanced cell
velocity, divided by the smallest spacing component (not the Euclidean
magnitude the claim states). -/
theorem C2_cfl_max_component (S : ℕ) (vc : ℤ × ℤ → ℚ × ℚ) (g : ℚ × ℚ)
    (dt : ℚ) (sp : ℚ × ℚ) :
    cfl S vc g dt sp = cflMaxComponent S vc g dt sp := by
  unfold cfl cflMaxComponent
  rw [← foldl_max_eq_foldr_max]
  simp only [List.foldl_map]
  ring

/-- C2 (counterexample): on a 3×3 velocity grid whose reconstructed
cell-center velocity is everywhere `(3, -4)`, with zero gravity, `dt = 1`
and unit spacing, `cfl` returns `3` (the largest component) while the
claim's magnitude formula gives `5`. -/
theorem C2_cfl_not_magnitude :
    ((cfl 3 vcEx (0, 0) 1 (1, 1) : ℚ) : ℝ) ≠
      cflSpecMagnitude 3 vcEx (0, 0) 1 (1, 1) := by
  have hq : cfl 3 vcEx (0, 0) 1 (1, 1) = 3 := cfl_vcEx_eq
  have hm : magnitude (3, -4) = 5 := by
    unfold magnitude
    rw [show ((((3 : ℚ) : ℝ)) ^ 2 + (((-4 : ℚ) : ℝ)) ^ 2 : ℝ) = 5 ^ 2 by push_cast; norm_num]
    exact Real.sqrt_sq (by norm_num)
  have hl : indexList 3 = [((0 : ℤ), (0 : ℤ)), (1, 0), (2, 0), (0, 1), (1, 1),
      (2, 1), (0, 2), (1, 2), (2, 2)] := by decide
  have h5 : cflSpecMagnitude 3 vcEx (0, 0) 1 (1, 1) = 5 := by
    unfold cflSpecMagnitude
    rw [hl]
    simp only [List.foldl_cons, List.foldl_nil, vcEx]
    norm_num [hm, max_eq_right]
  rw [hq, h5]
  norm_num

/-- C3 (counterexample): with a collider attached, one advanced time step
does not invoke the collider's update exactly once — `onAdvanceTimeStep`
runs `beginAdvanceTimeStep` itself and again inside `velocityStep`. -/
theorem C3_collider_not_updated_once :
    (onAdvanceTimeStepTrace true false).count StageEvent.colliderUpdate ≠ 1 := by
  decide

/-- C3 (amended): with a collider attached, one advanced time step invokes
the collider's update exactly twice — as the first call of the step and
again as the first call of the velocity stage (which re-runs the
begin-step sequence) — whether or not the viscosity coefficient is
positive; no other event in the step trace touches the collider. -/
theorem C3_collider_updated_twice :
    (onAdvanceTimeStepTrace true false).count StageEvent.colliderUpdate = 2 ∧
    (onAdvanceTimeStepTrace true true).count StageEvent.colliderUpdate = 2 ∧
    (onAdvanceTimeStepTrace true false).head? = some StageEvent.colliderUpdate ∧
    (onAdvanceTimeStepTrace true true).head? = some StageEvent.colliderUpdate ∧
    (velocityStepTrace true false).head? = some StageEvent.colliderUpdate ∧
    (velocityStepTrace true true).head? = some StageEvent.colliderUpdate := by
  decide

/-- C1: the gravity scenario cannot occur in the source as written — the
`computeExternalForces` call in `velocityStep` is commented out, so an
advanced step emits no gravity event at all (for any collider/viscosity
configuration), even though `computeGravity` itself would emit one; with
the sub-solvers instantiated as identity, a uniform velocity state
`u = 2, v = 5` is bit-identical after a step with `dt = 1/100`: no
velocity-y sample decreased by `0.098`. -/
theorem C1_gravity_stage_never_runs :
    (onAdvanceTimeStepTrace true false).count StageEvent.gravityAdd = 0 ∧
    (onAdvanceTimeStepTrace false false).count StageEvent.gravityAdd = 0 ∧
    (onAdvanceTimeStepTrace true true).count StageEvent.gravityAdd = 0 ∧
    (onAdvanceTimeStepTrace false true).count StageEvent.gravityAdd = 0 ∧
    (computeExternalForcesTrace true).count StageEvent.gravityAdd = 1 ∧
    (onAdvanceTimeStep id id 0 4 (-1, -1) (1, 1) (1/100) sC1).v (2, 2) = 5 ∧
    (onAdvanceTimeStep id id 0 4 (-1, -1) (1, 1) (1/100) sC1).u (2, 2) = 2 := by
  refine ⟨by decide, by decide, by decide, by decide, by decide, rfl, rfl⟩

end SmokeGrid
